import Mathlib

/-!
Verification of the in-memory multi-user file system (file_system.py).

The Python object graph is embedded as an arena (heap): entries live in a
list, and object references are indices into that list.  This keeps the
aliasing behaviour of the source faithful: `Directory.parent` back
references and the `children` mapping are both addresses, so cycles and
sharing are representable exactly as they are in the running program.

Python dictionaries preserve insertion order; `children` and `users` are
embedded as association lists with first-match lookup, insertion at the
end, and in-place deletion of the first matching key, which is exactly the
observable behaviour of a Python dict keyed by strings.

Timestamps (`created_at` / `modified_at`) are wall-clock values with no
influence on any other field or on control flow; they are omitted from the
embedding.  All result messages are reproduced verbatim from the source.
-/

namespace FsSim

/-- Association-list lookup: first pair whose key matches, as for a Python
dict indexing operation `d.get(k)`. -/
def alookup {α : Type} : List (String × α) → String → Option α
  | [], _ => none
  | (k, v) :: rest, n => if k = n then some v else alookup rest n

/-- Association-list deletion of the first pair with the given key, as for
the Python statement `del d[k]` on a string-keyed dict. -/
def adel {α : Type} : List (String × α) → String → List (String × α)
  | [], _ => []
  | (k, v) :: rest, n => if k = n then rest else (k, v) :: adel rest n

/-- Association-list in-place update of the first pair with the given key,
modelling mutation of the object stored under an existing key. -/
def aset {α : Type} : List (String × α) → String → α → List (String × α)
  | [], _, _ => []
  | (k, v) :: rest, n, x => if k = n then (n, x) :: rest else (k, v) :: aset rest n x

/-- An entry of the namespace: either a `File` (name, content, owner, size)
or a `Directory` (name, owner, parent back reference, children).  Children
and parents are heap addresses, mirroring Python object references. -/
inductive Entry : Type where
  | file (name content owner : String) (size : Nat)
  | dir (name owner : String) (parent : Option Nat) (children : List (String × Nat))
  deriving DecidableEq, Repr

/-- State of one `FileSystem` instance: the arena of entries, the address
of the root directory and the address of the current directory. -/
structure FS : Type where
  heap : List Entry
  root : Nat
  cwd : Nat
  deriving DecidableEq, Repr

/-- FileSystem.__init__: a single root directory named "/" with no parent,
which is also the current directory. -/
def freshFS (owner : String) : FS :=
  { heap := [Entry.dir "/" owner none []], root := 0, cwd := 0 }

/-- Addresses of the children of the directory stored at address `a`
(empty for a file or a dangling address). -/
def childAddrs (heap : List Entry) (a : Nat) : List Nat :=
  match heap[a]? with
  | some (Entry.dir _ _ _ cs) => cs.map Prod.snd
  | _ => []

/-- Directory.get_path: reconstruct the path by walking parent references;
the recursion is fueled because the heap embedding makes a cyclic parent
chain representable (Python would recurse forever there). -/
def getPath (heap : List Entry) : Nat → Nat → String
  | 0, _ => ""
  | fuel + 1, a =>
    match heap[a]? with
    | some (Entry.dir n _ (some p) _) =>
      let pp := getPath heap fuel p
      if pp = "/" then "/" ++ n else pp ++ "/" ++ n
    | some (Entry.dir _ _ none _) => "/"
    | _ => ""

/-- FileSystem.get_current_path. -/
def get_current_path (s : FS) : String :=
  getPath s.heap s.heap.length s.cwd

/-- FileSystem.create_file: fails if the name is already a child of the
current directory, otherwise allocates a new `File` and appends it to the
children mapping. -/
def create_file (s : FS) (name owner content : String) : (Bool × String) × FS :=
  match s.heap[s.cwd]? with
  | some (Entry.dir dn dow dpar cs) =>
    if (alookup cs name).isSome then
      ((false, "File or directory \x27" ++ name ++ "\x27 already exists"), s)
    else
      let a := s.heap.length
      let heap1 := (s.heap ++ [Entry.file name content owner content.length]).set s.cwd
        (Entry.dir dn dow dpar (cs ++ [(name, a)]))
      ((true, "File \x27" ++ name ++ "\x27 created successfully"), { s with heap := heap1 })
  | _ => ((false, "Failed to create file"), s)

/-- FileSystem.create_directory: fails on an existing name, rejects the
names "." and "..", otherwise allocates a new `Directory` whose parent is
the current directory and appends it to the children mapping. -/
def create_directory (s : FS) (name owner : String) : (Bool × String) × FS :=
  match s.heap[s.cwd]? with
  | some (Entry.dir dn dow dpar cs) =>
    if (alookup cs name).isSome then
      ((false, "File or directory \x27" ++ name ++ "\x27 already exists"), s)
    else if name = "." ∨ name = ".." then
      ((false, "Invalid directory name"), s)
    else
      let a := s.heap.length
      let heap1 := (s.heap ++ [Entry.dir name owner (some s.cwd) []]).set s.cwd
        (Entry.dir dn dow dpar (cs ++ [(name, a)]))
      ((true, "Directory \x27" ++ name ++ "\x27 created successfully"), { s with heap := heap1 })
  | _ => ((false, "Failed to create directory"), s)

/-- FileSystem._navigate_absolute_path walk: traverse segments through
children lookups starting at `cur`; a missing segment or a lookup inside a
file aborts with `none` (the for-loop with early returns in the source). -/
def walkParts (heap : List Entry) : Nat → List String → Option Nat
  | cur, [] => some cur
  | cur, part :: rest =>
    match heap[cur]? with
    | some (Entry.dir _ _ _ cs) =>
      match alookup cs part with
      | some a => walkParts heap a rest
      | none => none
    | _ => none

/-- Python str.strip with argument "/": remove every leading and trailing
slash character. -/
def stripSlashes (p : String) : String :=
  String.mk (((p.data.dropWhile (fun c => c = '/')).reverse.dropWhile (fun c => c = '/')).reverse)

/-- Python str.startswith("/"): the first character is a slash. -/
def startsWithSlash (p : String) : Bool :=
  match p.data with
  | [] => false
  | c :: _ => c = '/'

/-- Python str.split("/") on the underlying character list: split at every
slash, keeping empty segments, with [""] for the empty string. -/
def splitSlash : List Char → List (List Char)
  | [] => [[]]
  | c :: rest =>
    if c = '/' then [] :: splitSlash rest
    else
      match splitSlash rest with
      | s :: ss => (c :: s) :: ss
      | [] => [[c]]

/-- Python str.split("/") as an operation on strings. -/
def splitOnSlash (p : String) : List String :=
  (splitSlash p.data).map String.mk

/-- FileSystem._navigate_absolute_path: "/" resolves to the root; any
other path is stripped of surrounding slashes, split on "/", and walked
from the root. -/
def navigate_absolute_path (s : FS) (path : String) : Option Nat :=
  if path = "/" then some s.root
  else walkParts s.heap s.root (splitOnSlash (stripSlashes path))

/-- FileSystem.change_directory: dispatches on "/", "..", ".", absolute
paths and relative single names, exactly in the order of the source. -/
def change_directory (s : FS) (path : String) : (Bool × String) × FS :=
  if path = "/" then
    let s1 := { s with cwd := s.root }
    ((true, "Changed to root directory"), s1)
  else if path = ".." then
    match s.heap[s.cwd]? with
    | some (Entry.dir _ _ (some p) _) =>
      let s1 := { s with cwd := p }
      ((true, "Changed to " ++ get_current_path s1), s1)
    | _ => ((false, "Already at root directory"), s)
  else if path = "." then
    ((true, "Current directory: " ++ get_current_path s), s)
  else if startsWithSlash path then
    match navigate_absolute_path s path with
    | some a =>
      match s.heap[a]? with
      | some (Entry.dir _ _ _ _) =>
        let s1 := { s with cwd := a }
        ((true, "Changed to " ++ get_current_path s1), s1)
      | _ => ((false, "Directory \x27" ++ path ++ "\x27 not found"), s)
    | none => ((false, "Directory \x27" ++ path ++ "\x27 not found"), s)
  else
    match s.heap[s.cwd]? with
    | some (Entry.dir _ _ _ cs) =>
      match alookup cs path with
      | some a =>
        match s.heap[a]? with
        | some (Entry.dir _ _ _ _) =>
          let s1 := { s with cwd := a }
          ((true, "Changed to " ++ get_current_path s1), s1)
        | _ => ((false, "Directory \x27" ++ path ++ "\x27 not found"), s)
      | none => ((false, "Directory \x27" ++ path ++ "\x27 not found"), s)
    | _ => ((false, "Directory \x27" ++ path ++ "\x27 not found"), s)

/-- FileSystem.read_file: look the name up in the current directory;
missing names fail with the not-found message, directories fail with the
not-a-file message, files return their content.  The operation never
touches the state. -/
def read_file (s : FS) (name : String) : Bool × String :=
  match s.heap[s.cwd]? with
  | some (Entry.dir _ _ _ cs) =>
    match alookup cs name with
    | none => (false, "File \x27" ++ name ++ "\x27 not found")
    | some a =>
      match s.heap[a]? with
      | some (Entry.file _ content _ _) => (true, content)
      | some (Entry.dir _ _ _ _) => (false, "\x27" ++ name ++ "\x27 is a directory, not a file")
      | none => (false, "File \x27" ++ name ++ "\x27 not found")
  | _ => (false, "File \x27" ++ name ++ "\x27 not found")

/-- FileSystem.write_file: delegates to create_file when the name is
absent; overwrites content and size when it names a file; fails when it
names a directory. -/
def write_file (s : FS) (name content owner : String) : (Bool × String) × FS :=
  match s.heap[s.cwd]? with
  | some (Entry.dir _ _ _ cs) =>
    match alookup cs name with
    | none => create_file s name owner content
    | some a =>
      match s.heap[a]? with
      | some (Entry.file fn _ fow _) =>
        let heap1 := s.heap.set a (Entry.file fn content fow content.length)
        ((true, "File \x27" ++ name ++ "\x27 updated successfully"), { s with heap := heap1 })
      | _ => ((false, "\x27" ++ name ++ "\x27 is a directory, not a file"), s)
  | _ => ((false, "\x27" ++ name ++ "\x27 is a directory, not a file"), s)

/-- FileSystem.append_file: fails on a missing name or a directory;
otherwise concatenates the content and recomputes the size (File.append). -/
def append_file (s : FS) (name content : String) : (Bool × String) × FS :=
  match s.heap[s.cwd]? with
  | some (Entry.dir _ _ _ cs) =>
    match alookup cs name with
    | none => ((false, "File \x27" ++ name ++ "\x27 not found"), s)
    | some a =>
      match s.heap[a]? with
      | some (Entry.file fn fc fow _) =>
        let heap1 := s.heap.set a (Entry.file fn (fc ++ content) fow (fc ++ content).length)
        ((true, "Content appended to \x27" ++ name ++ "\x27"), { s with heap := heap1 })
      | _ => ((false, "\x27" ++ name ++ "\x27 is a directory, not a file"), s)
  | _ => ((false, "File \x27" ++ name ++ "\x27 not found"), s)

/-- FileSystem.delete: fails on a missing name and on a directory with at
least one child; otherwise removes the child from the current directory
(the entry itself stays in the arena, now unreferenced, as a garbage
collected Python object would). -/
def delete (s : FS) (name : String) : (Bool × String) × FS :=
  match s.heap[s.cwd]? with
  | some (Entry.dir dn dow dpar cs) =>
    match alookup cs name with
    | none => ((false, "\x27" ++ name ++ "\x27 not found"), s)
    | some a =>
      let nonEmptyDir : Bool :=
        match s.heap[a]? with
        | some (Entry.dir _ _ _ ecs) => !ecs.isEmpty
        | _ => false
      if nonEmptyDir then
        ((false, "Directory \x27" ++ name ++ "\x27 is not empty"), s)
      else
        let heap1 := s.heap.set s.cwd (Entry.dir dn dow dpar (adel cs name))
        ((true, "\x27" ++ name ++ "\x27 deleted successfully"), { s with heap := heap1 })
  | _ => ((false, "\x27" ++ name ++ "\x27 not found"), s)

/-- Directory.add_file on the heap: insert the file at address `fa` into
the children of the directory at `da`, keyed by the file name attribute,
unless the key is taken. -/
def heapAddFile (heap : List Entry) (da fa : Nat) : List Entry :=
  match heap[da]?, heap[fa]? with
  | some (Entry.dir dn dow dpar dcs), some (Entry.file fn _ _ _) =>
    if (alookup dcs fn).isSome then heap
    else heap.set da (Entry.dir dn dow dpar (dcs ++ [(fn, fa)]))
  | _, _ => heap

/-- Directory.add_directory on the heap: insert the directory at `ca` into
the children of the directory at `da` and redirect the parent back
reference of `ca` to `da`.  The parent write re-reads the heap so that the
aliasing case `da = ca` behaves as Python object mutation does. -/
def heapAddDir (heap : List Entry) (da ca : Nat) : List Entry :=
  match heap[da]?, heap[ca]? with
  | some (Entry.dir dn dow dpar dcs), some (Entry.dir cn _ _ _) =>
    if (alookup dcs cn).isSome then heap
    else
      let heap1 := heap.set da (Entry.dir dn dow dpar (dcs ++ [(cn, ca)]))
      match heap1[ca]? with
      | some (Entry.dir cn2 cow2 _ ccs2) => heap1.set ca (Entry.dir cn2 cow2 (some da) ccs2)
      | _ => heap1
  | _, _ => heap

/-- FileSystem.move: source and destination are both looked up in the
current directory; the destination must be a directory without a child of
the source name; then the source is removed from the current directory and
added to the destination.  All mutations are sequential heap updates, so
the aliasing of Python objects (including source = destination) is exact. -/
def move (s : FS) (source destination : String) : (Bool × String) × FS :=
  match s.heap[s.cwd]? with
  | some (Entry.dir cn cow cpar cs) =>
    match alookup cs source with
    | none => ((false, "Source \x27" ++ source ++ "\x27 not found"), s)
    | some sa =>
      match alookup cs destination with
      | none => ((false, "Destination \x27" ++ destination ++ "\x27 not found"), s)
      | some da =>
        match s.heap[da]? with
        | some (Entry.dir _ _ _ dcs) =>
          if (alookup dcs source).isSome then
            ((false, "\x27" ++ source ++ "\x27 already exists in \x27" ++ destination ++ "\x27"), s)
          else
            let heap1 := s.heap.set s.cwd (Entry.dir cn cow cpar (adel cs source))
            let heap2 :=
              match heap1[sa]? with
              | some (Entry.file _ _ _ _) => heapAddFile heap1 da sa
              | some (Entry.dir _ _ _ _) => heapAddDir heap1 da sa
              | none => heap1
            ((true, "Moved \x27" ++ source ++ "\x27 to \x27" ++ destination ++ "\x27"),
              { s with heap := heap2 })
        | _ => ((false, "Destination \x27" ++ destination ++ "\x27 is not a directory"), s)
  | _ => ((false, "Source \x27" ++ source ++ "\x27 not found"), s)

/-- FileSystem.copy_file: the source must name a file in the current
directory; a new file with the same content and the copying owner is added
under the destination name unless that name is taken.  (The Python code
allocates the copy before the membership check of add_file; a copy whose
insertion fails is unreferenced and unobservable, so the embedding only
extends the arena on success.) -/
def copy_file (s : FS) (source destination owner : String) : (Bool × String) × FS :=
  match s.heap[s.cwd]? with
  | some (Entry.dir dn dow dpar cs) =>
    match alookup cs source with
    | none => ((false, "Source file \x27" ++ source ++ "\x27 not found"), s)
    | some sa =>
      match s.heap[sa]? with
      | some (Entry.file _ content _ _) =>
        if (alookup cs destination).isSome then
          ((false, "File \x27" ++ destination ++ "\x27 already exists"), s)
        else
          let a := s.heap.length
          let heap1 := (s.heap ++ [Entry.file destination content owner content.length]).set s.cwd
            (Entry.dir dn dow dpar (cs ++ [(destination, a)]))
          ((true, "File copied from \x27" ++ source ++ "\x27 to \x27" ++ destination ++ "\x27"),
            { s with heap := heap1 })
      | _ => ((false, "\x27" ++ source ++ "\x27 is not a file"), s)
  | _ => ((false, "Source file \x27" ++ source ++ "\x27 not found"), s)

/-- The namespace mutation operations of the FileSystem class. -/
inductive Op : Type where
  | createFile (name owner content : String)
  | createDirectory (name owner : String)
  | changeDirectory (path : String)
  | writeFile (name content owner : String)
  | appendFile (name content : String)
  | deleteOp (name : String)
  | moveOp (source destination : String)
  | copyFile (source destination owner : String)
  deriving DecidableEq, Repr

/-- Run one namespace operation on a FileSystem state. -/
def step (op : Op) (s : FS) : (Bool × String) × FS :=
  match op with
  | Op.createFile name owner content => create_file s name owner content
  | Op.createDirectory name owner => create_directory s name owner
  | Op.changeDirectory path => change_directory s path
  | Op.writeFile name content owner => write_file s name content owner
  | Op.appendFile name content => append_file s name content
  | Op.deleteOp name => delete s name
  | Op.moveOp source destination => move s source destination
  | Op.copyFile source destination owner => copy_file s source destination owner

/-- Run a sequence of namespace operations, discarding the result pairs. -/
def runOps (s : FS) : List Op → FS
  | [] => s
  | op :: rest => runOps (step op s).2 rest

/-- The child addresses referenced by one entry. -/
def entryRefs : Entry → List Nat
  | Entry.file _ _ _ _ => []
  | Entry.dir _ _ _ cs => cs.map Prod.snd

/-- Every child reference in the arena, in heap order. -/
def allRefs (heap : List Entry) : List Nat :=
  (heap.map entryRefs).flatten

/-- Reference discipline of a well-formed state: every address is held by
at most one children mapping (single ownership) and nothing holds the
root.  This is the ownership part of the tree invariant of the spec. -/
def RefsOk (s : FS) : Prop :=
  (allRefs s.heap).Nodup ∧ s.root ∉ allRefs s.heap

instance (s : FS) : Decidable (RefsOk s) := by
  unfold RefsOk; infer_instance

/-- One step of the children relation: `b` is a child of `a`. -/
def ChildStep (heap : List Entry) (a b : Nat) : Prop :=
  b ∈ childAddrs heap a

instance (heap : List Entry) (a b : Nat) : Decidable (ChildStep heap a b) := by
  unfold ChildStep; infer_instance

/-- Reachability through the children mapping. -/
def Reach (heap : List Entry) : Nat → Nat → Prop :=
  Relation.ReflTransGen (ChildStep heap)

/-- Modelled from the claim wording for comparison with the source
algorithm: strip only the leading slashes, split the remainder on "/", and
walk from the root through children lookups. -/
def claimResolveLeading (s : FS) (path : String) : Option Nat :=
  walkParts s.heap s.root (splitOnSlash (String.mk (path.data.dropWhile (fun c => c = '/'))))

/-- Modelled from the amended claim: "/" resolves to the root; any other
path is stripped of leading and trailing slashes, split on "/", and folded
through children lookups from the root, where a segment that is missing or
is looked up inside a non-directory entry fails the whole resolution. -/
def specResolveAbs (s : FS) (path : String) : Option Nat :=
  if path = "/" then some s.root
  else
    (splitOnSlash (stripSlashes path)).foldlM
      (fun cur seg =>
        match s.heap[cur]? with
        | some (Entry.dir _ _ _ cs) => alookup cs seg
        | _ => none)
      s.root

/-- A User of the network file system: name data, an isolated FileSystem
owned by the username, and the logged_in flag (set to true by
User.__init__ at creation time). -/
structure UserM : Type where
  username : String
  lastname : String
  file_system : FS
  logged_in : Bool
  deriving DecidableEq, Repr

/-- NetworkFileSystem state: the users dict and the current_user
reference, embedded as the username key of the referenced User (users are
keyed by their unique usernames, and current_user is only ever assigned
from the users dict). -/
structure NFS : Type where
  users : List (String × UserM)
  current_user : Option String
  deriving DecidableEq, Repr

/-- NetworkFileSystem.__init__. -/
def freshNFS : NFS :=
  { users := [], current_user := none }

/-- NetworkFileSystem.create_user: reject a taken username, otherwise
store a new User (whose constructor sets logged_in to true). -/
def create_user (nfs : NFS) (username lastname : String) : (Bool × String) × NFS :=
  if (alookup nfs.users username).isSome then
    ((false, "User \x27" ++ username ++ "\x27 already exists"), nfs)
  else
    ((true, "User \x27" ++ username ++ "\x27 created successfully"),
      { nfs with users := nfs.users ++
          [(username,
            { username := username, lastname := lastname,
              file_system := freshFS username, logged_in := true })] })

/-- NetworkFileSystem.login: unknown users fail; otherwise the user
becomes current and its logged_in flag is set to true. -/
def login (nfs : NFS) (username : String) : (Bool × String) × NFS :=
  match alookup nfs.users username with
  | none => ((false, "User \x27" ++ username ++ "\x27 not found"), nfs)
  | some u =>
    ((true, "Welcome " ++ u.lastname ++ "!"),
      { users := aset nfs.users username { u with logged_in := true },
        current_user := some username })

/-- NetworkFileSystem.logout: with no current user it fails; otherwise the
current user object gets logged_in set to false and the current_user
reference is cleared.  (current_user always refers to an object stored in
the users dict, so the mutation is an update of that stored user; the
inner fallback for a dangling key is unreachable.) -/
def logout (nfs : NFS) : (Bool × String) × NFS :=
  match nfs.current_user with
  | some uname =>
    match alookup nfs.users uname with
    | some u =>
      ((true, "User \x27" ++ uname ++ "\x27 logged out"),
        { users := aset nfs.users uname { u with logged_in := false },
          current_user := none })
    | none =>
      ((true, "User \x27" ++ uname ++ "\x27 logged out"), { nfs with current_user := none })
  | none => ((false, "No user logged in"), nfs)

/-! Helper lemmas about the association-list dictionary embedding. -/

theorem alookup_append_none {α : Type} (l : List (String × α)) (n : String) (v : α)
    (h : alookup l n = none) : alookup (l ++ [(n, v)]) n = some v := by
  induction l with
  | nil => simp [alookup]
  | cons p rest ih =>
    obtain ⟨k, w⟩ := p
    by_cases hk : k = n
    · simp [alookup, hk] at h
    · simpa [alookup, hk] using ih (by simpa [alookup, hk] using h)

theorem alookup_mem_map_snd {α : Type} (l : List (String × α)) (n : String) (v : α)
    (h : alookup l n = some v) : v ∈ l.map Prod.snd := by
  induction l with
  | nil => simp [alookup] at h
  | cons p rest ih =>
    obtain ⟨k, w⟩ := p
    by_cases hk : k = n
    · simp [alookup, hk] at h
      simp [h]
    · simp [alookup, hk] at h
      simp [ih h]

theorem adel_not_mem_map_snd {α : Type} (l : List (String × α)) (n : String) (v : α)
    (hnd : (l.map Prod.snd).Nodup) (h : alookup l n = some v) :
    v ∉ (adel l n).map Prod.snd := by
  induction l with
  | nil => simp [alookup] at h
  | cons p rest ih =>
    obtain ⟨k, w⟩ := p
    simp only [List.map_cons, List.nodup_cons] at hnd
    by_cases hk : k = n
    · simp only [alookup, if_pos hk, Option.some.injEq] at h
      subst h
      simpa [adel, hk] using hnd.1
    · simp only [alookup, hk, if_neg hk] at h
      have hv : v ∈ rest.map Prod.snd := alookup_mem_map_snd rest n v h
      have hwv : w ≠ v := fun he => hnd.1 (he ▸ hv)
      simpa [adel, hk, hwv.symm] using ih hnd.2 h

theorem alookup_aset_self {α : Type} (l : List (String × α)) (n : String) (v x : α)
    (h : alookup l n = some v) : alookup (aset l n x) n = some x := by
  induction l with
  | nil => simp [alookup] at h
  | cons p rest ih =>
    obtain ⟨k, w⟩ := p
    by_cases hk : k = n
    · simp [aset, alookup, hk]
    · simp only [alookup, if_neg hk] at h
      simpa [aset, alookup, hk] using ih h

theorem alookup_aset_ne {α : Type} (l : List (String × α)) (n m : String) (x : α)
    (h : m ≠ n) : alookup (aset l n x) m = alookup l m := by
  induction l with
  | nil => simp [aset]
  | cons p rest ih =>
    obtain ⟨k, w⟩ := p
    by_cases hk : k = n
    · have hnm : ¬ n = m := fun he => h he.symm
      simp [aset, alookup, hk, hnm]
    · simp [aset, alookup, hk, ih]

/-! Failure atomicity of each operation: a failed call returns the state
it was given. -/

theorem create_file_fail_eq (s : FS) (n ow c : String) :
    (create_file s n ow c).1.1 = false → (create_file s n ow c).2 = s := by
  unfold create_file
  repeat' split
  all_goals simp

theorem create_directory_fail_eq (s : FS) (n ow : String) :
    (create_directory s n ow).1.1 = false → (create_directory s n ow).2 = s := by
  unfold create_directory
  repeat' split
  all_goals simp

theorem change_directory_fail_eq (s : FS) (p : String) :
    (change_directory s p).1.1 = false → (change_directory s p).2 = s := by
  unfold change_directory
  repeat' split
  all_goals simp

theorem write_file_fail_eq (s : FS) (n c ow : String) :
    (write_file s n c ow).1.1 = false → (write_file s n c ow).2 = s := by
  unfold write_file
  split
  · split
    · exact create_file_fail_eq _ _ _ _
    · split <;> simp
  · simp

theorem append_file_fail_eq (s : FS) (n c : String) :
    (append_file s n c).1.1 = false → (append_file s n c).2 = s := by
  unfold append_file
  repeat' split
  all_goals simp

theorem delete_fail_eq (s : FS) (n : String) :
    (delete s n).1.1 = false → (delete s n).2 = s := by
  unfold delete
  repeat' split
  all_goals simp
  all_goals (split <;> simp)

theorem move_fail_eq (s : FS) (src dst : String) :
    (move s src dst).1.1 = false → (move s src dst).2 = s := by
  unfold move
  repeat' split
  all_goals simp

theorem copy_file_fail_eq (s : FS) (src dst ow : String) :
    (copy_file s src dst ow).1.1 = false → (copy_file s src dst ow).2 = s := by
  unfold copy_file
  repeat' split
  all_goals simp

/-- A concrete session used by witnesses: an empty directory d and a file
f created in a fresh session. -/
def exState : FS :=
  runOps (freshFS "u") [Op.createDirectory "d" "u", Op.createFile "f" "u" "hi"]

/-- A concrete session with a single directory a, used by witnesses and
counterexamples. -/
def exDirState : FS :=
  runOps (freshFS "u") [Op.createDirectory "a" "u"]

/-- C1: the claim states that in every state reachable from a fresh
session by namespace operations the entries form a tree (no container
reachable from itself through the children mapping, consistent parent
back references, root parent null).  The code violates this: from a fresh
session, create_directory of a followed by move of a into a succeeds and
leaves the directory a as its own child and its own parent, detached from
the root.  This theorem evaluates the code at that failing input. -/
theorem c1_move_self_cycle_bug :
    (step (Op.moveOp "a" "a") exDirState).1.1 = true ∧
    (runOps (freshFS "u") [Op.createDirectory "a" "u", Op.moveOp "a" "a"]).heap[1]? =
      some (Entry.dir "a" "u" (some 1) [("a", 1)]) ∧
    ChildStep (runOps (freshFS "u") [Op.createDirectory "a" "u", Op.moveOp "a" "a"]).heap 1 1 ∧
    (runOps (freshFS "u") [Op.createDirectory "a" "u", Op.moveOp "a" "a"]).heap[0]? =
      some (Entry.dir "/" "u" none []) := by
  decide

/-- C2: every namespace operation that returns a failure result leaves
the session state (the whole arena of entries, hence all payloads, and
the current-directory cursor) exactly as it was before the call. -/
theorem c2_failure_leaves_state_unchanged (op : Op) (s : FS)
    (h : (step op s).1.1 = false) : (step op s).2 = s := by
  cases op with
  | createFile n ow c => exact create_file_fail_eq s n ow c h
  | createDirectory n ow => exact create_directory_fail_eq s n ow h
  | changeDirectory p => exact change_directory_fail_eq s p h
  | writeFile n c ow => exact write_file_fail_eq s n c ow h
  | appendFile n c => exact append_file_fail_eq s n c h
  | deleteOp n => exact delete_fail_eq s n h
  | moveOp a b => exact move_fail_eq s a b h
  | copyFile a b ow => exact copy_file_fail_eq s a b ow h

/-- Witness for C2: deleting a missing name in a fresh session fails and
the state is unchanged. -/
theorem c2_witness :
    (step (Op.deleteOp "x") (freshFS "u")).1.1 = false ∧
    (step (Op.deleteOp "x") (freshFS "u")).2 = freshFS "u" :=
  ⟨by decide, c2_failure_leaves_state_unchanged (Op.deleteOp "x") (freshFS "u") (by decide)⟩

/-- C3 counterexample: with the current directory at the root, cd ".."
returns the failure flag together with the message "Already at root
directory", so the AtRoot outcome is reported as a failure result, not as
a success as the claim states. -/
theorem c3_cd_parent_at_root_counterexample :
    (change_directory (freshFS "u") "..").1.1 = false ∧
    (change_directory (freshFS "u") "..").1.2 = "Already at root directory" ∧
    (change_directory (freshFS "u") "..").2 = freshFS "u" := by
  decide

/-- C3 amended: whenever the current directory has no parent, cd ".."
leaves the whole state unchanged and reports the benign AtRoot outcome as
a failure result carrying the informational message "Already at root
directory", which is distinct from the NotFound message for every path. -/
theorem c3_cd_parent_at_root (s : FS) (dn dow : String) (cs : List (String × Nat))
    (h : s.heap[s.cwd]? = some (Entry.dir dn dow none cs)) :
    change_directory s ".." = ((false, "Already at root directory"), s) ∧
    ∀ p : String, "Already at root directory" ≠ "Directory \x27" ++ p ++ "\x27 not found" := by
  constructor
  · unfold change_directory
    simp [h]
  · intro p hcontra
    have h2 := congrArg String.data hcontra
    simp only [String.data_append] at h2
    injection h2 with h3 h4
    exact absurd h3 (by decide)

/-- Witness for C3 at the fresh session, whose current directory is the
parentless root. -/
theorem c3_witness :
    (freshFS "u").heap[(freshFS "u").cwd]? = some (Entry.dir "/" "u" none []) ∧
    (change_directory (freshFS "u") ".." = ((false, "Already at root directory"), freshFS "u") ∧
      ∀ p : String, "Already at root directory" ≠ "Directory \x27" ++ p ++ "\x27 not found") :=
  ⟨by decide, c3_cd_parent_at_root (freshFS "u") "/" "u" [] (by decide)⟩

/-- C4 counterexample: cd into a file child yields exactly the same
failure outcome (flag and message) as cd to a completely missing name, so
the failure on a file is not a NotADirectory error distinct from
NotFound, contrary to the claim. -/
theorem c4_cd_file_counterexample :
    (change_directory exState "f").1 = (false, "Directory \x27f\x27 not found") ∧
    (change_directory (freshFS "u") "f").1 = (false, "Directory \x27f\x27 not found") := by
  decide

/-- C4 amended: read_file on a directory child fails with the
not-a-file message; change_directory into a file child (by a plain
relative name) fails and leaves the current directory unchanged, but with
the same "Directory not found" message that a missing name produces, not
with a distinct NotADirectory error. -/
theorem c4_kind_safety (s : FS) (dn dow : String) (dpar : Option Nat)
    (cs : List (String × Nat))
    (hcwd : s.heap[s.cwd]? = some (Entry.dir dn dow dpar cs)) :
    (∀ n b en eo ep ecs, alookup cs n = some b →
      s.heap[b]? = some (Entry.dir en eo ep ecs) →
      read_file s n = (false, "\x27" ++ n ++ "\x27 is a directory, not a file")) ∧
    (∀ n b fn fc fo fsz, alookup cs n = some b →
      s.heap[b]? = some (Entry.file fn fc fo fsz) →
      n ≠ "/" → n ≠ ".." → n ≠ "." → startsWithSlash n = false →
      change_directory s n = ((false, "Directory \x27" ++ n ++ "\x27 not found"), s)) := by
  constructor
  · intro n b en eo ep ecs hb hd
    unfold read_file
    simp [hcwd, hb, hd]
  · intro n b fn fc fo fsz hb hf h1 h2 h3 h4
    unfold change_directory
    simp [hcwd, hb, hf, h1, h2, h3, h4]

/-- Witness for C4: in the concrete session with directory d and file f,
reading d fails with the not-a-file message and cd into f fails with the
not-found message. -/
theorem c4_witness :
    exState.heap[exState.cwd]? = some (Entry.dir "/" "u" none [("d", 1), ("f", 2)]) ∧
    read_file exState "d" = (false, "\x27d\x27 is a directory, not a file") ∧
    change_directory exState "f" = ((false, "Directory \x27f\x27 not found"), exState) :=
  ⟨by decide,
    (c4_kind_safety exState "/" "u" none [("d", 1), ("f", 2)] (by decide)).1
      "d" 1 "d" "u" (some 0) [] (by decide) (by decide),
    (c4_kind_safety exState "/" "u" none [("d", 1), ("f", 2)] (by decide)).2
      "f" 2 "f" "hi" "u" 2 (by decide) (by decide) (by decide) (by decide) (by decide)
      (by decide)⟩

/-- The explicit early-return walk of the source equals a monadic fold of
children lookups over the segment list. -/
theorem walkParts_eq_foldlM (heap : List Entry) (parts : List String) (cur : Nat) :
    walkParts heap cur parts =
      parts.foldlM
        (fun c seg =>
          match heap[c]? with
          | some (Entry.dir _ _ _ cs) => alookup cs seg
          | _ => none)
        cur := by
  induction parts generalizing cur with
  | nil => rfl
  | cons part rest ih =>
    unfold walkParts
    cases hc : heap[cur]? with
    | none => simp [List.foldlM_cons, hc]
    | some e =>
      cases e with
      | file a b c d => simp [List.foldlM_cons, hc]
      | dir a b c cs =>
        cases ha : alookup cs part with
        | none => simp [List.foldlM_cons, hc, ha]
        | some x => simp [List.foldlM_cons, hc, ha, ih]

/-- C5 counterexample: the source strips trailing slashes as well as
leading ones, so on the path "/a/" it resolves the directory a while the
algorithm described by the claim (strip leading slashes only, then split)
produces the segments a and the empty string and fails with NotFound. -/
theorem c5_trailing_slash_counterexample :
    navigate_absolute_path exDirState "/a/" = some 1 ∧
    claimResolveLeading exDirState "/a/" = none ∧
    (change_directory exDirState "/a/").1.1 = true := by
  decide

/-- C5 amended: for every path beginning with a slash, resolution agrees
with the spec-style algorithm that special-cases "/" to the root and
otherwise strips leading and trailing slashes, splits on "/", and folds
through children lookups from the root, failing when a segment is missing
or looked up inside a non-directory.  Resolution is a pure function of
the state; when it fails, change_directory reports NotFound and returns
the state unchanged. -/
theorem c5_absolute_resolution (s : FS) (p : String) (h : startsWithSlash p = true) :
    navigate_absolute_path s p = specResolveAbs s p ∧
    (navigate_absolute_path s p = none →
      change_directory s p = ((false, "Directory \x27" ++ p ++ "\x27 not found"), s)) := by
  constructor
  · unfold navigate_absolute_path specResolveAbs
    split
    · rfl
    · exact walkParts_eq_foldlM s.heap _ s.root
  · intro hnone
    have hp1 : p ≠ "/" := by
      intro he
      subst he
      simp [navigate_absolute_path] at hnone
    have hp2 : p ≠ ".." := by
      intro he
      subst he
      exact absurd h (by decide)
    have hp3 : p ≠ "." := by
      intro he
      subst he
      exact absurd h (by decide)
    unfold change_directory
    simp [hp1, hp2, hp3, h, hnone]

/-- Witness for C5 at the path "/missing" in a fresh session: the two
resolutions agree and the failing resolution makes cd report NotFound. -/
theorem c5_witness :
    startsWithSlash "/missing" = true ∧
    (navigate_absolute_path (freshFS "u") "/missing" = specResolveAbs (freshFS "u") "/missing" ∧
      (navigate_absolute_path (freshFS "u") "/missing" = none →
        change_directory (freshFS "u") "/missing" =
          ((false, "Directory \x27/missing\x27 not found"), freshFS "u"))) :=
  ⟨by decide, c5_absolute_resolution (freshFS "u") "/missing" (by decide)⟩

/-- Reduction of create_file on a current directory without the name:
success, a fresh file appended to the arena and to the children. -/
theorem create_file_eq (s : FS) (name owner content dn dow : String) (dpar : Option Nat)
    (cs : List (String × Nat))
    (hcwd : s.heap[s.cwd]? = some (Entry.dir dn dow dpar cs))
    (habs : alookup cs name = none) :
    create_file s name owner content =
      ((true, "File \x27" ++ name ++ "\x27 created successfully"),
        { s with heap := ((s.heap ++ [Entry.file name content owner content.length]).set s.cwd
            (Entry.dir dn dow dpar (cs ++ [(name, s.heap.length)]))) }) := by
  unfold create_file
  rw [hcwd]
  dsimp only
  simp [habs]

/-- Reduction of write_file on an absent name: it is create_file. -/
theorem write_file_absent (s : FS) (name content owner dn dow : String) (dpar : Option Nat)
    (cs : List (String × Nat))
    (hcwd : s.heap[s.cwd]? = some (Entry.dir dn dow dpar cs))
    (habs : alookup cs name = none) :
    write_file s name content owner = create_file s name owner content := by
  unfold write_file
  rw [hcwd]
  dsimp only
  rw [habs]

/-- Reduction of write_file on an existing file child: success and an
in-place update of content and size. -/
theorem write_file_update (s : FS) (name content owner dn dow fn fc fow : String)
    (dpar : Option Nat) (cs : List (String × Nat)) (ba fsz : Nat)
    (hcwd : s.heap[s.cwd]? = some (Entry.dir dn dow dpar cs))
    (hf : alookup cs name = some ba)
    (hfile : s.heap[ba]? = some (Entry.file fn fc fow fsz)) :
    write_file s name content owner =
      ((true, "File \x27" ++ name ++ "\x27 updated successfully"),
        { s with heap := (s.heap.set ba (Entry.file fn content fow content.length)) }) := by
  unfold write_file
  rw [hcwd]
  dsimp only
  rw [hf]
  dsimp only
  rw [hfile]

/-- Reduction of read_file on a current directory whose child at the
looked-up address is a file: the payload is returned. -/
theorem read_file_eq (s : FS) (name dn dow fn fc fow : String)
    (dpar : Option Nat) (cs : List (String × Nat)) (ba fsz : Nat)
    (hcwd : s.heap[s.cwd]? = some (Entry.dir dn dow dpar cs))
    (hf : alookup cs name = some ba)
    (hfile : s.heap[ba]? = some (Entry.file fn fc fow fsz)) :
    read_file s name = (true, fc) := by
  unfold read_file
  rw [hcwd]
  dsimp only
  rw [hf]
  dsimp only
  rw [hfile]

/-- C7: whenever write_file returns success, an immediate read_file of
the same name in the same directory returns the written content. -/
theorem c7_write_read_roundtrip (s : FS) (f content owner : String)
    (h : (write_file s f content owner).1.1 = true) :
    read_file (write_file s f content owner).2 f = (true, content) := by
  cases hcwd : s.heap[s.cwd]? with
  | none =>
    unfold write_file at h
    rw [hcwd] at h
    simp at h
  | some e =>
    cases e with
    | file a b c d =>
      unfold write_file at h
      rw [hcwd] at h
      simp at h
    | dir dn dow dpar cs =>
      have hlt : s.cwd < s.heap.length := (List.getElem?_eq_some.mp hcwd).1
      cases ha : alookup cs f with
      | none =>
        rw [write_file_absent s f content owner dn dow dpar cs hcwd ha,
          create_file_eq s f owner content dn dow dpar cs hcwd ha]
        have h1 : ((s.heap ++ [Entry.file f content owner content.length]).set s.cwd
            (Entry.dir dn dow dpar (cs ++ [(f, s.heap.length)])))[s.cwd]? =
            some (Entry.dir dn dow dpar (cs ++ [(f, s.heap.length)])) :=
          List.getElem?_set_self (by simp [Nat.lt_succ_of_lt hlt])
        have h2 : ((s.heap ++ [Entry.file f content owner content.length]).set s.cwd
            (Entry.dir dn dow dpar (cs ++ [(f, s.heap.length)])))[s.heap.length]? =
            some (Entry.file f content owner content.length) := by
          rw [List.getElem?_set_ne (Nat.ne_of_lt hlt)]
          exact List.getElem?_concat_length _ _
        exact read_file_eq _ f dn dow f content owner dpar _ s.heap.length content.length
          h1 (alookup_append_none cs f s.heap.length ha) h2
      | some b =>
        cases hb : s.heap[b]? with
        | none =>
          unfold write_file at h
          rw [hcwd] at h
          dsimp only at h
          rw [ha] at h
          dsimp only at h
          rw [hb] at h
          simp at h
        | some e2 =>
          cases e2 with
          | dir a2 b2 c2 d2 =>
            unfold write_file at h
            rw [hcwd] at h
            dsimp only at h
            rw [ha] at h
            dsimp only at h
            rw [hb] at h
            simp at h
          | file fn fc fow fsz =>
            have hblt : b < s.heap.length := (List.getElem?_eq_some.mp hb).1
            have hne : s.cwd ≠ b := by
              intro he
              rw [he, hb] at hcwd
              exact absurd hcwd (by simp)
            rw [write_file_update s f content owner dn dow fn fc fow dpar cs b fsz hcwd ha hb]
            have h1 : (s.heap.set b (Entry.file fn content fow content.length))[s.cwd]? =
                some (Entry.dir dn dow dpar cs) := by
              rw [List.getElem?_set_ne (fun hh => hne hh.symm)]
              exact hcwd
            exact read_file_eq _ f dn dow fn content fow dpar cs b content.length h1 ha
              (List.getElem?_set_self hblt)

/-- Witness for C7: writing a fresh file then reading it back. -/
theorem c7_witness :
    (write_file (freshFS "u") "notes" "hello" "u").1.1 = true ∧
    read_file (write_file (freshFS "u") "notes" "hello" "u").2 "notes" = (true, "hello") :=
  ⟨by decide, c7_write_read_roundtrip (freshFS "u") "notes" "hello" "u" (by decide)⟩

/-- C8: appending to a file with payload fc succeeds, a subsequent read
returns the concatenation, and the stored size field equals the length of
the new payload. -/
theorem c8_append_concatenation (s : FS) (f b dn dow fn fc fow : String) (dpar : Option Nat)
    (cs : List (String × Nat)) (ba fsz : Nat)
    (hcwd : s.heap[s.cwd]? = some (Entry.dir dn dow dpar cs))
    (hf : alookup cs f = some ba)
    (hfile : s.heap[ba]? = some (Entry.file fn fc fow fsz)) :
    (append_file s f b).1.1 = true ∧
    read_file (append_file s f b).2 f = (true, fc ++ b) ∧
    (append_file s f b).2.heap[ba]? = some (Entry.file fn (fc ++ b) fow (fc ++ b).length) := by
  have hba : ba < s.heap.length := (List.getElem?_eq_some.mp hfile).1
  have hne : s.cwd ≠ ba := by
    intro he
    rw [he, hfile] at hcwd
    exact absurd hcwd (by simp)
  have happ : append_file s f b =
      ((true, "Content appended to \x27" ++ f ++ "\x27"),
        { s with heap := (s.heap.set ba (Entry.file fn (fc ++ b) fow (fc ++ b).length)) }) := by
    unfold append_file
    rw [hcwd]
    dsimp only
    rw [hf]
    dsimp only
    rw [hfile]
  rw [happ]
  have h1 : (s.heap.set ba (Entry.file fn (fc ++ b) fow (fc ++ b).length))[s.cwd]? =
      some (Entry.dir dn dow dpar cs) := by
    rw [List.getElem?_set_ne (fun hh => hne hh.symm)]
    exact hcwd
  refine ⟨rfl, ?_, ?_⟩
  · exact read_file_eq _ f dn dow fn (fc ++ b) fow dpar cs ba (fc ++ b).length h1 hf
      (List.getElem?_set_self hba)
  · exact List.getElem?_set_self hba

/-- Witness for C8: appending to the file f of the concrete session. -/
theorem c8_witness :
    exState.heap[exState.cwd]? = some (Entry.dir "/" "u" none [("d", 1), ("f", 2)]) ∧
    alookup [("d", 1), ("f", 2)] "f" = some 2 ∧
    exState.heap[2]? = some (Entry.file "f" "hi" "u" 2) ∧
    ((append_file exState "f" " there").1.1 = true ∧
      read_file (append_file exState "f" " there").2 "f" = (true, "hi" ++ " there") ∧
      (append_file exState "f" " there").2.heap[2]? =
        some (Entry.file "f" ("hi" ++ " there") "u" ("hi" ++ " there").length)) :=
  ⟨by decide, by decide, by decide,
    c8_append_concatenation exState "f" " there" "/" "u" "f" "hi" "u" none
      [("d", 1), ("f", 2)] 2 2 (by decide) (by decide) (by decide)⟩

/-- C9: create_directory rejects the names "." and ".." with the invalid
name message, but create_file (and write_file, which delegates to it for
an absent name) accepts them and inserts a file entry under that name. -/
theorem c9_dot_names (s : FS) (dn dow owner content : String) (dpar : Option Nat)
    (cs : List (String × Nat)) (n : String)
    (hn : n = "." ∨ n = "..")
    (hcwd : s.heap[s.cwd]? = some (Entry.dir dn dow dpar cs))
    (habs : alookup cs n = none) :
    create_directory s n owner = ((false, "Invalid directory name"), s) ∧
    (create_file s n owner content).1.1 = true ∧
    (create_file s n owner content).2.heap[s.cwd]? =
      some (Entry.dir dn dow dpar (cs ++ [(n, s.heap.length)])) ∧
    (create_file s n owner content).2.heap[s.heap.length]? =
      some (Entry.file n content owner content.length) ∧
    write_file s n content owner = create_file s n owner content := by
  have hlt : s.cwd < s.heap.length := (List.getElem?_eq_some.mp hcwd).1
  have hcf := create_file_eq s n owner content dn dow dpar cs hcwd habs
  refine ⟨?_, ?_, ?_, ?_, ?_⟩
  · unfold create_directory
    rw [hcwd]
    dsimp only
    simp [habs, hn]
  · rw [hcf]
  · rw [hcf]
    exact List.getElem?_set_self (by simp [Nat.lt_succ_of_lt hlt])
  · rw [hcf]
    show ((s.heap ++ [Entry.file n content owner content.length]).set s.cwd
      (Entry.dir dn dow dpar (cs ++ [(n, s.heap.length)])))[s.heap.length]? = _
    rw [List.getElem?_set_ne (Nat.ne_of_lt hlt)]
    exact List.getElem?_concat_length _ _
  · exact write_file_absent s n content owner dn dow dpar cs hcwd habs

/-- Witness for C9: in a fresh session, mkdir of "." is rejected while
touch of "." succeeds and stores a file named ".". -/
theorem c9_witness :
    (("." : String) = "." ∨ ("." : String) = "..") ∧
    (freshFS "u").heap[(freshFS "u").cwd]? = some (Entry.dir "/" "u" none []) ∧
    alookup ([] : List (String × Nat)) "." = none ∧
    (create_directory (freshFS "u") "." "u" = ((false, "Invalid directory name"), freshFS "u") ∧
      (create_file (freshFS "u") "." "u" "x").1.1 = true ∧
      (create_file (freshFS "u") "." "u" "x").2.heap[(freshFS "u").cwd]? =
        some (Entry.dir "/" "u" none [(".", (freshFS "u").heap.length)]) ∧
      (create_file (freshFS "u") "." "u" "x").2.heap[(freshFS "u").heap.length]? =
        some (Entry.file "." "x" "u" ("x" : String).length) ∧
      write_file (freshFS "u") "." "x" "u" = create_file (freshFS "u") "." "u" "x") :=
  ⟨Or.inl rfl, by decide, by decide,
    c9_dot_names (freshFS "u") "/" "u" "u" "x" none [] "." (Or.inl rfl) (by decide) (by decide)⟩

/-! Reachability infrastructure for the deletion claim. -/

theorem mem_allRefs_of_entry (heap : List Entry) (a : Nat) (e : Entry) (x : Nat)
    (ha : heap[a]? = some e) (hx : x ∈ entryRefs e) : x ∈ allRefs heap := by
  unfold allRefs
  rw [List.mem_flatten]
  refine ⟨entryRefs e, ?_, hx⟩
  have he : e ∈ heap := by
    obtain ⟨hlt, rfl⟩ := List.getElem?_eq_some.mp ha
    exact List.getElem_mem hlt
  exact List.mem_map_of_mem entryRefs he

theorem entry_refs_nodup (heap : List Entry) (a : Nat) (e : Entry)
    (hnd : (allRefs heap).Nodup) (ha : heap[a]? = some e) : (entryRefs e).Nodup := by
  unfold allRefs at hnd
  rw [List.nodup_flatten] at hnd
  apply hnd.1
  apply List.mem_map_of_mem
  obtain ⟨hlt, rfl⟩ := List.getElem?_eq_some.mp ha
  exact List.getElem_mem hlt

theorem refs_disjoint_of_ne (heap : List Entry) (i j : Nat) (ei ej : Entry) (x : Nat)
    (hnd : (allRefs heap).Nodup) (hij : i ≠ j)
    (hi : heap[i]? = some ei) (hj : heap[j]? = some ej)
    (hx : x ∈ entryRefs ei) : x ∉ entryRefs ej := by
  unfold allRefs at hnd
  rw [List.nodup_flatten] at hnd
  have hpw := hnd.2
  rw [List.pairwise_iff_getElem] at hpw
  obtain ⟨hilt, hie⟩ := List.getElem?_eq_some.mp hi
  obtain ⟨hjlt, hje⟩ := List.getElem?_eq_some.mp hj
  rcases Nat.lt_or_ge i j with hord | hord
  · have hd := hpw i j (by simpa using hilt) (by simpa using hjlt) hord
    simp only [List.getElem_map] at hd
    rw [hie, hje] at hd
    exact hd hx
  · have hlt : j < i := Nat.lt_of_le_of_ne hord (fun he => hij he.symm)
    have hd := hpw j i (by simpa using hjlt) (by simpa using hilt) hlt
    simp only [List.getElem_map] at hd
    rw [hie, hje] at hd
    exact hd.symm hx

theorem childAddrs_eq (heap : List Entry) (a : Nat) (e : Entry) (ha : heap[a]? = some e) :
    childAddrs heap a = entryRefs e := by
  unfold childAddrs
  rw [ha]
  cases e <;> rfl

theorem childAddrs_none (heap : List Entry) (a : Nat) (ha : heap[a]? = none) :
    childAddrs heap a = [] := by
  unfold childAddrs
  rw [ha]

theorem not_reach_of_no_refs (heap : List Entry) (r d : Nat)
    (hnr : ∀ x, d ∉ childAddrs heap x) (hne : r ≠ d) : ¬ Reach heap r d := by
  intro hr
  rcases Relation.ReflTransGen.cases_tail hr with he | ⟨c, _, hstep⟩
  · exact hne he.symm
  · exact hnr c hstep

/-- C6: for a directory child of the current directory, deletion is
rejected with the not-empty message (and the state kept) when it has at
least one child, and succeeds and makes the directory unreachable from
the root when it has none.  RefsOk captures the single-ownership
discipline of the arena, which every reachable state of the source
satisfies. -/
theorem c6_delete_directory (s : FS) (dn dow n en eo : String) (dpar ep : Option Nat)
    (cs ecs : List (String × Nat)) (da : Nat)
    (hwf : RefsOk s)
    (hcwd : s.heap[s.cwd]? = some (Entry.dir dn dow dpar cs))
    (hn : alookup cs n = some da)
    (hda : s.heap[da]? = some (Entry.dir en eo ep ecs)) :
    (ecs ≠ [] → delete s n = ((false, "Directory \x27" ++ n ++ "\x27 is not empty"), s)) ∧
    (ecs = [] → (delete s n).1.1 = true ∧
      ¬ Reach (delete s n).2.heap (delete s n).2.root da) := by
  have hcwdlt : s.cwd < s.heap.length := (List.getElem?_eq_some.mp hcwd).1
  constructor
  · intro hne
    cases ecs with
    | nil => exact absurd rfl hne
    | cons e0 etl =>
      unfold delete
      rw [hcwd]
      dsimp only
      rw [hn]
      dsimp only
      rw [hda]
      simp
  · intro hempty
    subst hempty
    have hdel : delete s n =
        ((true, "\x27" ++ n ++ "\x27 deleted successfully"),
          { s with heap := (s.heap.set s.cwd (Entry.dir dn dow dpar (adel cs n))) }) := by
      unfold delete
      rw [hcwd]
      dsimp only
      rw [hn]
      dsimp only
      rw [hda]
      simp
    rw [hdel]
    refine ⟨rfl, ?_⟩
    have hda_mem : da ∈ entryRefs (Entry.dir dn dow dpar cs) := by
      simpa [entryRefs] using alookup_mem_map_snd cs n da hn
    have hkey : ∀ x, da ∉ childAddrs (s.heap.set s.cwd (Entry.dir dn dow dpar (adel cs n))) x := by
      intro x
      by_cases hx : x = s.cwd
      · subst hx
        rw [childAddrs_eq _ _ _ (List.getElem?_set_self hcwdlt)]
        have hcsnd : (cs.map Prod.snd).Nodup := by
          simpa [entryRefs] using entry_refs_nodup s.heap s.cwd _ hwf.1 hcwd
        simpa [entryRefs] using adel_not_mem_map_snd cs n da hcsnd hn
      · have hx2 : (s.heap.set s.cwd (Entry.dir dn dow dpar (adel cs n)))[x]? = s.heap[x]? :=
          List.getElem?_set_ne (fun hh => hx hh.symm)
        cases hex : s.heap[x]? with
        | none =>
          rw [childAddrs_none _ x (by rw [hx2, hex])]
          simp
        | some e =>
          rw [childAddrs_eq _ x e (by rw [hx2, hex])]
          exact refs_disjoint_of_ne s.heap s.cwd x _ e da hwf.1 (fun hh => hx hh.symm)
            hcwd hex hda_mem
    have hroot_ne : s.root ≠ da := by
      intro he
      apply hwf.2
      rw [he]
      exact mem_allRefs_of_entry s.heap s.cwd _ da hcwd hda_mem
    exact not_reach_of_no_refs _ s.root da hkey hroot_ne

/-- Witness for C6: deleting the empty directory d of the concrete
session succeeds and d is unreachable from the root afterwards.  The
not-empty half is witnessed at the root of a nested session. -/
theorem c6_witness :
    RefsOk exState ∧
    exState.heap[exState.cwd]? = some (Entry.dir "/" "u" none [("d", 1), ("f", 2)]) ∧
    alookup [("d", 1), ("f", 2)] "d" = some 1 ∧
    exState.heap[1]? = some (Entry.dir "d" "u" (some 0) []) ∧
    ((([] : List (String × Nat)) ≠ [] →
        delete exState "d" = ((false, "Directory \x27d\x27 is not empty"), exState)) ∧
      (([] : List (String × Nat)) = [] → (delete exState "d").1.1 = true ∧
        ¬ Reach (delete exState "d").2.heap (delete exState "d").2.root 1)) :=
  ⟨by decide, by decide, by decide, by decide,
    c6_delete_directory exState "/" "u" "d" "d" "u" none (some 0) [("d", 1), ("f", 2)] [] 1
      (by decide) (by decide) (by decide) (by decide)⟩

/-- C10: a user is created with logged_in already true, login of b after
login of a leaves the flag of a true (the flag does not track being the
active session), the active session is b alone, and logout of the active
user sets only that flag to false. -/
theorem c10_logged_in_flag (nfs : NFS) (a b c lname : String) (ua ub : UserM)
    (ha : alookup nfs.users a = some ua) (hb : alookup nfs.users b = some ub)
    (hab : a ≠ b) :
    ((create_user nfs c lname).1.1 = true →
      (alookup (create_user nfs c lname).2.users c).map UserM.logged_in = some true) ∧
    (alookup (login (login nfs a).2 b).2.users a).map UserM.logged_in = some true ∧
    (login (login nfs a).2 b).2.current_user = some b ∧
    (alookup (logout (login (login nfs a).2 b).2).2.users b).map UserM.logged_in = some false ∧
    (alookup (logout (login (login nfs a).2 b).2).2.users a).map UserM.logged_in = some true := by
  have hl1 : login nfs a = ((true, "Welcome " ++ ua.lastname ++ "!"),
      { users := aset nfs.users a { ua with logged_in := true }, current_user := some a }) := by
    unfold login
    rw [ha]
  have hlkb : alookup (aset nfs.users a { ua with logged_in := true }) b = some ub := by
    rw [alookup_aset_ne _ _ _ _ (fun he => hab he.symm)]
    exact hb
  have hl2 : login (login nfs a).2 b = ((true, "Welcome " ++ ub.lastname ++ "!"),
      { users := aset (aset nfs.users a { ua with logged_in := true }) b
          { ub with logged_in := true },
        current_user := some b }) := by
    rw [hl1]
    unfold login
    dsimp only
    rw [hlkb]
  have hlka2 : alookup (aset (aset nfs.users a { ua with logged_in := true }) b
      { ub with logged_in := true }) a = some { ua with logged_in := true } := by
    rw [alookup_aset_ne _ _ _ _ hab]
    exact alookup_aset_self _ _ _ _ ha
  have hlkb2 : alookup (aset (aset nfs.users a { ua with logged_in := true }) b
      { ub with logged_in := true }) b = some { ub with logged_in := true } :=
    alookup_aset_self _ _ _ _ hlkb
  have hlo : logout (login (login nfs a).2 b).2 = ((true, "User \x27" ++ b ++ "\x27 logged out"),
      { users := aset (aset (aset nfs.users a { ua with logged_in := true }) b
          { ub with logged_in := true }) b { ub with logged_in := false },
        current_user := none }) := by
    rw [hl2]
    unfold logout
    dsimp only
    rw [hlkb2]
  refine ⟨?_, ?_, ?_, ?_, ?_⟩
  · intro hcu
    unfold create_user at hcu ⊢
    by_cases hc : (alookup nfs.users c).isSome
    · rw [if_pos hc] at hcu
      simp at hcu
    · rw [if_neg hc]
      dsimp only
      rw [alookup_append_none nfs.users c _ (Option.not_isSome_iff_eq_none.mp hc)]
      rfl
  · rw [hl2]
    dsimp only
    rw [hlka2]
    rfl
  · rw [hl2]
  · rw [hlo]
    dsimp only
    rw [alookup_aset_self _ _ _ _ hlkb2]
    rfl
  · rw [hlo]
    dsimp only
    rw [alookup_aset_ne _ _ _ _ hab, hlka2]
    rfl

/-- A concrete registry with users alice and bob, used by the witness. -/
def exNFS : NFS :=
  (create_user (create_user freshNFS "alice" "Smith").2 "bob" "Jones").2

/-- Witness for C10 on the concrete registry with alice and bob. -/
theorem c10_witness :
    alookup exNFS.users "alice" = some
      { username := "alice", lastname := "Smith",
        file_system := freshFS "alice", logged_in := true } ∧
    alookup exNFS.users "bob" = some
      { username := "bob", lastname := "Jones",
        file_system := freshFS "bob", logged_in := true } ∧
    ("alice" : String) ≠ "bob" ∧
    (alookup (login (login exNFS "alice").2 "bob").2.users "alice").map UserM.logged_in =
      some true ∧
    (login (login exNFS "alice").2 "bob").2.current_user = some "bob" ∧
    (alookup (logout (login (login exNFS "alice").2 "bob").2).2.users "bob").map
      UserM.logged_in = some false :=
  ⟨by decide, by decide, by decide,
    (c10_logged_in_flag exNFS "alice" "bob" "carol" "C"
      { username := "alice", lastname := "Smith",
        file_system := freshFS "alice", logged_in := true }
      { username := "bob", lastname := "Jones",
        file_system := freshFS "bob", logged_in := true }
      (by decide) (by decide) (by decide)).2.1,
    (c10_logged_in_flag exNFS "alice" "bob" "carol" "C"
      { username := "alice", lastname := "Smith",
        file_system := freshFS "alice", logged_in := true }
      { username := "bob", lastname := "Jones",
        file_system := freshFS "bob", logged_in := true }
      (by decide) (by decide) (by decide)).2.2.1,
    (c10_logged_in_flag exNFS "alice" "bob" "carol" "C"
      { username := "alice", lastname := "Smith",
        file_system := freshFS "alice", logged_in := true }
      { username := "bob", lastname := "Jones",
        file_system := freshFS "bob", logged_in := true }
      (by decide) (by decide) (by decide)).2.2.2.1⟩

end FsSim
